import Mathlib

/-
Verification development for the AppRefinerHook auto-indentation and
auto-pairing engines (src/AppRefinerHook/AutoIndent.cpp,
src/AppRefinerHook/AutoPairing.cpp, src/AppRefinerHook/ScintillaUtils.cpp).

The editor document is modelled as a list of lines, each line carrying its
raw text (a list of characters, as the C++ code works on std::string) and
its indentation counter (SCI_GETLINEINDENTATION / SCI_SETLINEINDENTATION,
a non-negative integer property of the line; the C++ code clamps negative
values to zero, so we use Nat).
-/

namespace AppRefiner

/-- ASCII lower-casing of one character, as std::tolower does on ASCII input
(ScintillaUtils.cpp, ToLowerCase). -/
def toLowerChar (c : Char) : Char :=
  if 'A' ≤ c ∧ c ≤ 'Z' then Char.ofNat (c.toNat + 32) else c

/-- ToLowerCase from ScintillaUtils.cpp lines 4-10: lowercases every character. -/
def ToLowerCase (s : List Char) : List Char :=
  s.map toLowerChar

/-- Boolean test that `pat` is a prefix of `s`; this is the C++ idiom
`s.find(pat) == 0` used throughout AutoIndent.cpp. -/
def leadsWith : List Char → List Char → Bool
  | [], _ => true
  | _ :: _, [] => false
  | a :: as, b :: bs => a == b && leadsWith as bs

/-- Boolean test that `sub` occurs as a contiguous substring of `s`; this is
the C++ idiom `s.find(sub) != std::string::npos`. -/
def hasSub (s sub : List Char) : Bool :=
  if leadsWith sub s then true
  else match s with
    | [] => false
    | _ :: t => hasSub t sub

/-- Characters stripped from the front of a line by GetTrimmedLineText
(`find_first_not_of(" \t")`). -/
def isLeadWs (c : Char) : Bool := c == ' ' || c == '\t'

/-- Characters stripped from the back of a line by GetTrimmedLineText
(`find_last_not_of(" \t\r\n")`). -/
def isTrailWs (c : Char) : Bool := c == ' ' || c == '\t' || c == '\r' || c == '\n'

/-- Trailing-whitespace trim exactly as GetTrimmedLineText does it
(ScintillaUtils.cpp lines 47-51): `find_last_not_of(" \t\r\n")` returning
npos leaves the string unchanged, otherwise the trailing run is cut. -/
def cppTrimTrailing (s : List Char) : List Char :=
  let r := s.reverse.dropWhile isTrailWs
  if r.isEmpty then s else r.reverse

/-- A document line: raw text plus the host-managed indentation counter. -/
structure SrcLine where
  text : List Char
  indent : Nat
  deriving DecidableEq

/-- SCI_GETLINE for an invalid line yields no text; otherwise the stored text. -/
def lineTextRaw (doc : List SrcLine) (i : Nat) : List Char :=
  ((doc.get? i).map SrcLine.text).getD []

/-- GetTrimmedLineText from ScintillaUtils.cpp lines 13-65: fetch the line
(empty for an invalid or empty line), cap the length at 10000, strip leading
spaces/tabs (all-whitespace lines become empty), then strip the trailing
whitespace run. -/
def GetTrimmedLineText (doc : List SrcLine) (i : Nat) : List Char :=
  cppTrimTrailing (((lineTextRaw doc i).take 10000).dropWhile isLeadWs)

/-- SCI_GETLINEINDENTATION: 0 for an invalid line; AutoIndent.cpp clamps
negative results to 0 (lines 96-98, 176, 351). -/
def getIndent (doc : List SrcLine) (i : Nat) : Nat :=
  ((doc.get? i).map SrcLine.indent).getD 0

/-- SCI_SETLINEINDENTATION: replace line `i`'s indentation counter, leaving
its text alone; a no-op on an invalid line index. -/
def setIndent : List SrcLine → Nat → Nat → List SrcLine
  | [], _, _ => []
  | l :: ls, 0, v => ⟨l.text, v⟩ :: ls
  | l :: ls, n + 1, v => l :: setIndent ls n v

/-- BlockPattern from AutoIndent.h lines 7-16, fields in source order. -/
structure BlockPattern where
  startPattern : List Char
  endPattern : List Char
  requiresFullMatch : Bool
  requiresAdditionalCheck : Bool
  additionalPattern : List Char
  decreasePreviousLine : Bool
  endPatternIsPartial : Bool
  matchingPattern : List Char
  deriving DecidableEq

/-- The static pattern table from AutoIndent.cpp lines 4-18, row for row. -/
def blockPatterns : List BlockPattern :=
  [ ⟨"if ".toList, "end-if;".toList, false, true, " then".toList, false, false, "if ".toList⟩
  , ⟨"for ".toList, "end-for;".toList, false, false, [], false, false, "for ".toList⟩
  , ⟨"while ".toList, "end-while;".toList, false, false, [], false, false, "while ".toList⟩
  , ⟨"method ".toList, "end-method;".toList, false, false, [], false, false, "method ".toList⟩
  , ⟨"function ".toList, "end-function;".toList, false, false, [], false, false, "function ".toList⟩
  , ⟨"else".toList, [], true, false, [], true, false, "if ".toList⟩
  , ⟨"evaluate ".toList, "end-evaluate;".toList, false, false, [], false, false, "evaluate ".toList⟩
  , ⟨"when ".toList, [], false, false, [], true, false, "evaluate ".toList⟩
  , ⟨"when-other".toList, [], true, false, [], true, false, "evaluate ".toList⟩
  , ⟨"repeat".toList, "until".toList, true, false, [], false, true, "repeat".toList⟩
  , ⟨"try".toList, "end-try;".toList, true, false, [], false, false, "try".toList⟩
  , ⟨"catch".toList, [], false, false, [], true, false, "try".toList⟩ ]

/-- Start-pattern match from AutoIndent.cpp lines 109-115: exact equality of
the lowercased trimmed line when `requiresFullMatch`, otherwise prefix. -/
def matchStartPattern (p : BlockPattern) (ll : List Char) : Bool :=
  if p.requiresFullMatch then ll == p.startPattern else leadsWith p.startPattern ll

/-- The first scan over the pattern table on a newline event
(AutoIndent.cpp lines 104-137): returns (increaseIndent, decreasePreviousLine).
A `method ` line ending in `;` is skipped (class-header declaration, lines
118-122); a prefix match of `if ` without the ` then` substring does not break
out of the loop (lines 125-130). -/
def scanPatterns : List BlockPattern → List Char → Bool × Bool
  | [], _ => (false, false)
  | p :: ps, ll =>
    if matchStartPattern p ll then
      if p.startPattern == "method ".toList && ll.getLast? == some ';' then
        scanPatterns ps ll
      else if p.requiresAdditionalCheck then
        if hasSub ll p.additionalPattern then (true, p.decreasePreviousLine)
        else scanPatterns ps ll
      else (true, p.decreasePreviousLine)
    else scanPatterns ps ll

/-- The second scan on a newline event (AutoIndent.cpp lines 147-156):
the matchingPattern of the first decreasePreviousLine pattern that matches
the lowercased previous line; empty when none does. -/
def findPatternToMatch : List BlockPattern → List Char → List Char
  | [], _ => []
  | p :: ps, ll =>
    if p.decreasePreviousLine && matchStartPattern p ll then p.matchingPattern
    else findPatternToMatch ps ll

/-- The nested-end check inside the else/when/catch backward search
(AutoIndent.cpp lines 179-191): some pattern of the same anchor family has a
non-empty end pattern matching this line (prefix plus a semicolon somewhere
when `endPatternIsPartial`, exact equality otherwise). -/
def endCheckMatches (patternToMatch ls : List Char) : Bool :=
  blockPatterns.any fun p =>
    !p.endPattern.isEmpty && p.matchingPattern == patternToMatch &&
      (if p.endPatternIsPartial then leadsWith p.endPattern ls && hasSub ls ";".toList
       else ls == p.endPattern)

/-- The backward anchor search for else/when/when-other/catch
(AutoIndent.cpp lines 159-205), fuel = remaining iterations
(MAX_ITERATIONS - iterations). Returns the found (line, indentation) together
with the final value of the C++ `iterations` counter. A line whose end check
fires bumps the nesting level; a line starting with `patternToMatch` is the
anchor at nesting level 0 and otherwise lowers the nesting level. The loop
stops after processing line 0 (searchLine becomes -1 in the source). -/
def searchMatchingLoop (doc : List SrcLine) (patternToMatch : List Char) :
    Nat → Nat → Nat → Nat → Option (Nat × Nat) × Nat
  | 0, _, _, iter => (none, iter)
  | fuel + 1, searchLine, nesting, iter =>
    let ls := ToLowerCase (GetTrimmedLineText doc searchLine)
    let li := getIndent doc searchLine
    let nesting' := if endCheckMatches patternToMatch ls then nesting + 1 else nesting
    if leadsWith patternToMatch ls then
      if nesting' = 0 then (some (searchLine, li), iter)
      else if searchLine = 0 then (none, iter + 1)
      else searchMatchingLoop doc patternToMatch fuel (searchLine - 1) (nesting' - 1) (iter + 1)
    else if searchLine = 0 then (none, iter + 1)
    else searchMatchingLoop doc patternToMatch fuel (searchLine - 1) nesting' (iter + 1)

/-- The newline branch of HandlePeopleCodeAutoIndentation
(AutoIndent.cpp lines 64-233), as a document transformer. `cur` is the line
the caret sits on after the newline; `tw` the tab width. On the first line,
or when the previous line is blank after trimming, nothing changes. When the
matched pattern is a continuation construct (decreasePreviousLine) and the
backward anchor search from line cur-2 succeeds, the previous line's
indentation is overwritten with the anchor's and used as the base;
otherwise the previous line's current indentation is the base. The new line
gets base + tabWidth when the pattern increases indentation.
(The caret repositioning at lines 231-233 touches no line state and is not
modelled.) The backward-search base value (the decreasePreviousLine branch,
lines 139-219) is factored out as `newlineScanBase`: `none` when no
continuation construct matched, the previous line is the first line, or the
search failed; `some (line, indent)` when the anchor search succeeded. -/
def newlineScanBase (cur : Nat) (doc : List SrcLine) : Option (Nat × Nat) :=
  let ll := ToLowerCase (GetTrimmedLineText doc (cur - 1))
  if (scanPatterns blockPatterns ll).2 then
    let ptm := findPatternToMatch blockPatterns ll
    if ptm.isEmpty then none
    else if cur - 1 = 0 then none
    else (searchMatchingLoop doc ptm 1000 (cur - 1 - 1) 0 0).1
  else none

def handleNewline (tw cur : Nat) (doc : List SrcLine) : List SrcLine :=
  if cur = 0 then doc
  else
    let prevStr := GetTrimmedLineText doc (cur - 1)
    if prevStr.isEmpty then doc
    else
      let inc := (scanPatterns blockPatterns (ToLowerCase prevStr)).1
      match newlineScanBase cur doc with
      | some (_, m) =>
        setIndent (setIndent doc (cur - 1) m) cur (m + (if inc then tw else 0))
      | none =>
        setIndent doc cur (getIndent doc (cur - 1) + (if inc then tw else 0))

/-- The end-statement recognition loop of the semicolon branch
(AutoIndent.cpp lines 265-283; the parameter-extraction loop at lines 313-335
recomputes the same first match): the first pattern whose non-empty end
pattern matches the lowercased current line. -/
def findEndPattern : List BlockPattern → List Char → Option BlockPattern
  | [], _ => none
  | p :: ps, lc =>
    if !p.endPattern.isEmpty &&
        (if p.endPatternIsPartial then leadsWith p.endPattern lc && hasSub lc ";".toList
         else lc == p.endPattern) then some p
    else findEndPattern ps lc

/-- The backward opener search of the semicolon branch
(AutoIndent.cpp lines 337-391). A line exactly equal to the end pattern bumps
the nesting level and is not tested as an opener (the if/else at lines
353-358); an opener match (exact when `fullMatch`, else prefix, plus the
additional substring when `addCheck`) at nesting level 0 is the result and
otherwise lowers the nesting level. Returns the result together with the
final `iterations` counter. -/
def searchOpenerLoop (doc : List SrcLine) (endPat startPat : List Char)
    (fullMatch addCheck : Bool) (addPat : List Char) :
    Nat → Nat → Nat → Nat → Option (Nat × Nat) × Nat
  | 0, _, _, iter => (none, iter)
  | fuel + 1, searchLine, nesting, iter =>
    let ls := ToLowerCase (GetTrimmedLineText doc searchLine)
    let li := getIndent doc searchLine
    if ls == endPat then
      if searchLine = 0 then (none, iter + 1)
      else searchOpenerLoop doc endPat startPat fullMatch addCheck addPat
        fuel (searchLine - 1) (nesting + 1) (iter + 1)
    else
      let openerHit := if fullMatch then ls == startPat else leadsWith startPat ls
      if openerHit then
        if addCheck then
          if hasSub ls addPat then
            if nesting = 0 then (some (searchLine, li), iter)
            else if searchLine = 0 then (none, iter + 1)
            else searchOpenerLoop doc endPat startPat fullMatch addCheck addPat
              fuel (searchLine - 1) (nesting - 1) (iter + 1)
          else if searchLine = 0 then (none, iter + 1)
          else searchOpenerLoop doc endPat startPat fullMatch addCheck addPat
            fuel (searchLine - 1) nesting (iter + 1)
        else
          if nesting = 0 then (some (searchLine, li), iter)
          else if searchLine = 0 then (none, iter + 1)
          else searchOpenerLoop doc endPat startPat fullMatch addCheck addPat
            fuel (searchLine - 1) (nesting - 1) (iter + 1)
      else if searchLine = 0 then (none, iter + 1)
      else searchOpenerLoop doc endPat startPat fullMatch addCheck addPat
        fuel (searchLine - 1) nesting (iter + 1)

/-- The semicolon branch of HandlePeopleCodeAutoIndentation
(AutoIndent.cpp lines 235-443), as a document transformer. A blank current
line or a line matching no end pattern changes nothing (lines 251-254;
`shouldDeindent = isEndStatement` at line 285 makes the else-search at lines
398-430 unreachable). On line 0 the search start would be negative and the
function returns unchanged (lines 293-297). When the opener search succeeds
the current line takes the opener's indentation (lines 433-435); otherwise it
takes its own indentation minus the tab width, floored at zero (lines
436-442; Nat subtraction is that floor). -/
def handleSemicolon (tw cur : Nat) (doc : List SrcLine) : List SrcLine :=
  let currentLineStr := GetTrimmedLineText doc cur
  if currentLineStr.isEmpty then doc
  else
    let lc := ToLowerCase currentLineStr
    match findEndPattern blockPatterns lc with
    | none => doc
    | some p =>
      if cur = 0 then doc
      else
        match (searchOpenerLoop doc p.endPattern p.startPattern
            p.requiresFullMatch p.requiresAdditionalCheck p.additionalPattern
            1000 (cur - 1) 0 0).1 with
        | some (_, bi) => setIndent doc cur bi
        | none => setIndent doc cur (getIndent doc cur - tw)

/-- Following claim C1's words, for comparison with the source's search:
the nearest enclosing unmatched `if ... then` anchor above `sl`, where a
nested closer (`end-if;`) increments the nesting counter, an `if ... then`
opener at nesting > 0 decrements it, and the anchor is the opener found at
nesting 0. The source's search (searchMatchingLoop) differs: its opener test
is only `leadsWith "if "` and never checks ` then`. -/
def claimNearestIfThenAnchor (doc : List SrcLine) : Nat → Nat → Option (Nat × Nat)
  | 0, nesting =>
    let ls := ToLowerCase (GetTrimmedLineText doc 0)
    if ls == "end-if;".toList then none
    else if leadsWith "if ".toList ls && hasSub ls " then".toList then
      if nesting = 0 then some (0, getIndent doc 0) else none
    else none
  | sl + 1, nesting =>
    let ls := ToLowerCase (GetTrimmedLineText doc (sl + 1))
    if ls == "end-if;".toList then claimNearestIfThenAnchor doc sl (nesting + 1)
    else if leadsWith "if ".toList ls && hasSub ls " then".toList then
      if nesting = 0 then some (sl + 1, getIndent doc (sl + 1))
      else claimNearestIfThenAnchor doc sl (nesting - 1)
    else claimNearestIfThenAnchor doc sl nesting

/-- Following claim C2's words, for comparison with the source's search:
the matching `repeat` opener above `sl`, where a structurally identical
nested end-marker (a nested `until...;` line) increments the nesting level
and a `repeat` opener decrements it, terminating at nesting level 0. The
source's search (searchOpenerLoop) differs: its nesting check is exact
equality with the bare end pattern `until`, so `until <expr>;` lines are
never counted. -/
def claimRepeatAnchor (doc : List SrcLine) : Nat → Nat → Option (Nat × Nat)
  | 0, nesting =>
    let ls := ToLowerCase (GetTrimmedLineText doc 0)
    if leadsWith "until".toList ls && hasSub ls ";".toList then none
    else if ls == "repeat".toList then
      if nesting = 0 then some (0, getIndent doc 0) else none
    else none
  | sl + 1, nesting =>
    let ls := ToLowerCase (GetTrimmedLineText doc (sl + 1))
    if leadsWith "until".toList ls && hasSub ls ";".toList then
      claimRepeatAnchor doc sl (nesting + 1)
    else if ls == "repeat".toList then
      if nesting = 0 then some (sl + 1, getIndent doc (sl + 1))
      else claimRepeatAnchor doc sl (nesting - 1)
    else claimRepeatAnchor doc sl nesting

/-- The document refuting claim C1: an `if ... then` opener at indentation 0,
then a line starting with `if ` but lacking ` then` at indentation 3, then
`else`, then the fresh line created by the newline. -/
def cex1Doc : List SrcLine :=
  [⟨"if &a then".toList, 0⟩, ⟨"if &x".toList, 3⟩, ⟨"else".toList, 5⟩, ⟨[], 0⟩]

/-- The document refuting claim C2: two nested repeat blocks, the inner one
closed by `until &a = 1;`, with `until &b = 2;` being completed on the last
line. -/
def cex2Doc : List SrcLine :=
  [⟨"repeat".toList, 0⟩, ⟨"repeat".toList, 3⟩,
   ⟨"until &a = 1;".toList, 3⟩, ⟨"until &b = 2;".toList, 6⟩]

section Lemmas

/-- leadsWith is the prepend relation. -/
theorem leadsWith_iff (p s : List Char) : leadsWith p s = true ↔ ∃ t, s = p ++ t := by
  induction p generalizing s with
  | nil => simp [leadsWith]
  | cons a as ih =>
    cases s with
    | nil => simp [leadsWith]
    | cons b bs =>
      simp only [leadsWith, Bool.and_eq_true, beq_iff_eq, ih, List.cons_append,
        List.cons.injEq]
      constructor
      · rintro ⟨rfl, t, rfl⟩; exact ⟨t, rfl, rfl⟩
      · rintro ⟨t, rfl, rfl⟩; exact ⟨rfl, t, rfl⟩

theorem leadsWith_cons_ne_nil {a : Char} {as s : List Char}
    (h : leadsWith (a :: as) s = true) : s ≠ [] := by
  cases s with
  | nil => simp [leadsWith] at h
  | cons b bs => simp

theorem ToLowerCase_eq_nil_iff (s : List Char) : ToLowerCase s = [] ↔ s = [] := by
  simp [ToLowerCase]

end Lemmas

section SearchBounds

theorem searchMatchingLoop_iter_le (doc : List SrcLine) (pat : List Char) :
    ∀ (fuel sl nest iter : Nat),
      (searchMatchingLoop doc pat fuel sl nest iter).2 ≤ iter + fuel ∧
      (searchMatchingLoop doc pat fuel sl nest iter).2 ≤ iter + sl + 1 := by
  intro fuel
  induction fuel with
  | zero =>
    intro sl nest iter
    exact ⟨by simp [searchMatchingLoop], by simp [searchMatchingLoop]; omega⟩
  | succ f ih =>
    intro sl nest iter
    simp only [searchMatchingLoop]
    split_ifs <;>
      refine ⟨?_, ?_⟩ <;>
      first
        | (dsimp only; omega)
        | (rw [show iter + (f + 1) = iter + 1 + f from by omega]; exact (ih _ _ _).1)
        | (rw [show iter + sl + 1 = iter + 1 + (sl - 1) + 1 from by omega]; exact (ih _ _ _).2)

theorem searchOpenerLoop_iter_le (doc : List SrcLine) (ep sp ap : List Char) (fm ac : Bool) :
    ∀ (fuel sl nest iter : Nat),
      (searchOpenerLoop doc ep sp fm ac ap fuel sl nest iter).2 ≤ iter + fuel ∧
      (searchOpenerLoop doc ep sp fm ac ap fuel sl nest iter).2 ≤ iter + sl + 1 := by
  intro fuel
  induction fuel with
  | zero =>
    intro sl nest iter
    exact ⟨by simp [searchOpenerLoop], by simp [searchOpenerLoop]; omega⟩
  | succ f ih =>
    intro sl nest iter
    simp only [searchOpenerLoop]
    split_ifs <;>
      refine ⟨?_, ?_⟩ <;>
      first
        | (dsimp only; omega)
        | (rw [show iter + (f + 1) = iter + 1 + f from by omega]; exact (ih _ _ _).1)
        | (rw [show iter + sl + 1 = iter + 1 + (sl - 1) + 1 from by omega]; exact (ih _ _ _).2)

end SearchBounds

section HandlerLemmas

theorem findEndPattern_nil : ∀ ps : List BlockPattern, findEndPattern ps [] = none := by
  intro ps
  induction ps with
  | nil => rfl
  | cons p ps ih =>
    simp only [findEndPattern]
    cases hep : p.endPattern with
    | nil => simp [ih]
    | cons a as => cases hpp : p.endPatternIsPartial <;> simp [hep, hpp, leadsWith, ih]

/-- Shared helper: whenever the current line is recognized as an end
statement but the opener search comes back empty, the semicolon handler
takes the fallback branch. -/
theorem semicolon_search_none_eq
    (doc : List SrcLine) (tw cur : Nat) (p : BlockPattern)
    (h1 : cur ≠ 0)
    (h2 : findEndPattern blockPatterns (ToLowerCase (GetTrimmedLineText doc cur)) = some p)
    (h3 : (searchOpenerLoop doc p.endPattern p.startPattern p.requiresFullMatch
        p.requiresAdditionalCheck p.additionalPattern 1000 (cur - 1) 0 0).1 = none) :
    handleSemicolon tw cur doc = setIndent doc cur (getIndent doc cur - tw) := by
  have hne : (GetTrimmedLineText doc cur).isEmpty = false := by
    rw [List.isEmpty_eq_false]
    intro h
    rw [h, show ToLowerCase [] = [] from rfl, findEndPattern_nil] at h2
    cases h2
  simp only [handleSemicolon, hne, Bool.false_eq_true, if_false, h2, if_neg h1, h3]

end HandlerLemmas

/-- Claim C3: for every line whose trimmed lowercased text matches a single
non-nested block-opener pattern (`if ... then`, `for `, `while `, `method `
not ending in `;`, `function `), pressing newline after that line sets the
new line's indentation to exactly the opener line's indentation plus one
tab-width unit (and changes nothing else). -/
theorem opener_newline_increases_indent
    (doc : List SrcLine) (tw cur : Nat)
    (h1 : 1 ≤ cur)
    (h2 : (leadsWith "if ".toList (ToLowerCase (GetTrimmedLineText doc (cur - 1))) = true ∧
           hasSub (ToLowerCase (GetTrimmedLineText doc (cur - 1))) " then".toList = true) ∨
          leadsWith "for ".toList (ToLowerCase (GetTrimmedLineText doc (cur - 1))) = true ∨
          leadsWith "while ".toList (ToLowerCase (GetTrimmedLineText doc (cur - 1))) = true ∨
          (leadsWith "method ".toList (ToLowerCase (GetTrimmedLineText doc (cur - 1))) = true ∧
           (ToLowerCase (GetTrimmedLineText doc (cur - 1))).getLast? ≠ some ';') ∨
          leadsWith "function ".toList (ToLowerCase (GetTrimmedLineText doc (cur - 1))) = true) :
    handleNewline tw cur doc = setIndent doc cur (getIndent doc (cur - 1) + tw) := by
  have hc : cur ≠ 0 := by omega
  have hscan : scanPatterns blockPatterns (ToLowerCase (GetTrimmedLineText doc (cur - 1))) = (true, false) ∧
      ToLowerCase (GetTrimmedLineText doc (cur - 1)) ≠ [] := by
    rcases h2 with ⟨hpre, hthen⟩ | hpre | hpre | ⟨hpre, hlast⟩ | hpre
    · obtain ⟨t, hll⟩ := (leadsWith_iff _ _).1 hpre
      rw [hll] at hthen ⊢
      refine ⟨?_, by simp⟩
      have e : scanPatterns blockPatterns ("if ".toList ++ t) =
          if hasSub ("if ".toList ++ t) " then".toList then (true, false) else (false, false) := rfl
      rw [e, hthen]; simp
    · obtain ⟨t, hll⟩ := (leadsWith_iff _ _).1 hpre
      rw [hll]; exact ⟨rfl, by simp⟩
    · obtain ⟨t, hll⟩ := (leadsWith_iff _ _).1 hpre
      rw [hll]; exact ⟨rfl, by simp⟩
    · obtain ⟨t, hll⟩ := (leadsWith_iff _ _).1 hpre
      rw [hll] at hlast ⊢
      refine ⟨?_, by simp⟩
      have hb : ((("method ".toList ++ t).getLast?) == some ';') = false := by
        simp only [beq_eq_false_iff_ne, ne_eq]
        exact hlast
      have e : scanPatterns blockPatterns ("method ".toList ++ t) =
          if (("method ".toList ++ t).getLast? == some ';') then (false, false) else (true, false) := rfl
      rw [e, hb]; simp
    · obtain ⟨t, hll⟩ := (leadsWith_iff _ _).1 hpre
      rw [hll]; exact ⟨rfl, by simp⟩
  have hne : (GetTrimmedLineText doc (cur - 1)).isEmpty = false := by
    rw [List.isEmpty_eq_false]
    intro h
    exact hscan.2 (by rw [h]; rfl)
  simp only [handleNewline, newlineScanBase, if_neg hc, hne, Bool.false_eq_true, if_false, hscan.1]
  simp

/-- Witness for C3: a concrete `if ... then` opener at indentation 5 with
tab width 4 puts the new line at indentation 9. -/
theorem opener_newline_increases_indent_witness :
    handleNewline 4 1 [⟨"if &a then".toList, 5⟩, ⟨[], 0⟩] =
      setIndent [⟨"if &a then".toList, 5⟩, ⟨[], 0⟩] 1
        (getIndent [⟨"if &a then".toList, 5⟩, ⟨[], 0⟩] 0 + 4) :=
  opener_newline_increases_indent _ 4 1 (by decide) (Or.inl ⟨by decide, by decide⟩)

/-- Claim C4: for every line whose trimmed lowercased text starts with
`method ` and ends with `;` (a class-header declaration), newline after it
does not increase indentation: the new line receives exactly the previous
line's indentation. -/
theorem method_header_keeps_indent
    (doc : List SrcLine) (tw cur : Nat)
    (h1 : 1 ≤ cur)
    (h2 : leadsWith "method ".toList (ToLowerCase (GetTrimmedLineText doc (cur - 1))) = true)
    (h3 : (ToLowerCase (GetTrimmedLineText doc (cur - 1))).getLast? = some ';') :
    handleNewline tw cur doc = setIndent doc cur (getIndent doc (cur - 1)) := by
  have hc : cur ≠ 0 := by omega
  obtain ⟨t, hll⟩ := (leadsWith_iff _ _).1 h2
  have hscan : scanPatterns blockPatterns (ToLowerCase (GetTrimmedLineText doc (cur - 1))) = (false, false) := by
    rw [hll] at h3 ⊢
    have e : scanPatterns blockPatterns ("method ".toList ++ t) =
        if (("method ".toList ++ t).getLast? == some ';') then (false, false) else (true, false) := rfl
    rw [e, h3]; simp
  have hne : (GetTrimmedLineText doc (cur - 1)).isEmpty = false := by
    rw [List.isEmpty_eq_false]
    intro h
    rw [h] at hll
    simp [ToLowerCase] at hll
  simp only [handleNewline, newlineScanBase, if_neg hc, hne, Bool.false_eq_true, if_false, hscan]
  simp

/-- Witness for C4: a concrete `method Foo(&x as number);` header line at
indentation 2 gives the new line indentation 2 (no increase). -/
theorem method_header_keeps_indent_witness :
    handleNewline 4 1 [⟨"method Foo(&x as number);".toList, 2⟩, ⟨[], 0⟩] =
      setIndent [⟨"method Foo(&x as number);".toList, 2⟩, ⟨[], 0⟩] 1
        (getIndent [⟨"method Foo(&x as number);".toList, 2⟩, ⟨[], 0⟩] 0) :=
  method_header_keeps_indent _ 4 1 (by decide) (by decide) (by decide)

/-- Claim C5: when a semicolon completes an end-statement line but the
backward scan finds no matching opener, the handler sets the line's
indentation to its current indentation minus one tab width, floored at zero
(Nat subtraction is that floor), and changes nothing else. -/
theorem semicolon_fallback_deindent
    (doc : List SrcLine) (tw cur : Nat) (p : BlockPattern)
    (h1 : 1 ≤ cur)
    (h2 : findEndPattern blockPatterns (ToLowerCase (GetTrimmedLineText doc cur)) = some p)
    (h3 : (searchOpenerLoop doc p.endPattern p.startPattern p.requiresFullMatch
        p.requiresAdditionalCheck p.additionalPattern 1000 (cur - 1) 0 0).1 = none) :
    handleSemicolon tw cur doc = setIndent doc cur (getIndent doc cur - tw) :=
  semicolon_search_none_eq doc tw cur p (by omega) h2 h3

/-- Witness for C5: completing `end-if;` at indentation 7 with no `if`
opener above falls back to 7 - 4 = 3. -/
theorem semicolon_fallback_deindent_witness :
    handleSemicolon 4 1 [⟨"x".toList, 0⟩, ⟨"end-if;".toList, 7⟩] =
      setIndent [⟨"x".toList, 0⟩, ⟨"end-if;".toList, 7⟩] 1
        (getIndent [⟨"x".toList, 0⟩, ⟨"end-if;".toList, 7⟩] 1 - 4) :=
  semicolon_fallback_deindent _ 4 1
    ⟨"if ".toList, "end-if;".toList, false, true, " then".toList, false, false, "if ".toList⟩
    (by decide) (by decide) (by decide)

/-- Counterexample to claim C1 as stated: in cex1Doc the nearest enclosing
unmatched `if ... then` anchor (per the claim's own nesting rules, computed
by claimNearestIfThenAnchor) is line 0 at indentation 0, yet the newline
handler sets the `else` line (line 2) to indentation 3, because the source's
search accepts the mere `if `-prefixed line 1 (which lacks ` then`) as the
anchor. -/
theorem else_anchor_cex :
    claimNearestIfThenAnchor cex1Doc 1 0 = some (0, 0) ∧
    getIndent (handleNewline 4 3 cex1Doc) 2 = 3 := by decide

/-- Amended claim C1: when a newline is typed after an `else`/`when `/
`when-other`/`catch` line and the source's backward anchor search succeeds,
the previous line's indentation is set to the found anchor's indentation and
the new line to that plus one tab width; the search counts the family's
end-marker lines as nesting and accepts as anchor any line merely starting
with the family's matching pattern (`if `/`evaluate `/`try`), without the
` then` qualification. -/
theorem decrease_construct_aligns
    (doc : List SrcLine) (tw cur j m it : Nat) (fam : List Char)
    (h1 : 2 ≤ cur)
    (h2 : (ToLowerCase (GetTrimmedLineText doc (cur - 1)) = "else".toList ∧ fam = "if ".toList) ∨
          (leadsWith "when ".toList (ToLowerCase (GetTrimmedLineText doc (cur - 1))) = true ∧
            fam = "evaluate ".toList) ∨
          (ToLowerCase (GetTrimmedLineText doc (cur - 1)) = "when-other".toList ∧
            fam = "evaluate ".toList) ∨
          (leadsWith "catch".toList (ToLowerCase (GetTrimmedLineText doc (cur - 1))) = true ∧
            fam = "try".toList))
    (h3 : searchMatchingLoop doc fam 1000 (cur - 1 - 1) 0 0 = (some (j, m), it)) :
    handleNewline tw cur doc = setIndent (setIndent doc (cur - 1) m) cur (m + tw) := by
  have hc : cur ≠ 0 := by omega
  have hp : cur - 1 ≠ 0 := by omega
  have hkey : scanPatterns blockPatterns (ToLowerCase (GetTrimmedLineText doc (cur - 1))) = (true, true) ∧
      findPatternToMatch blockPatterns (ToLowerCase (GetTrimmedLineText doc (cur - 1))) = fam ∧
      ToLowerCase (GetTrimmedLineText doc (cur - 1)) ≠ [] ∧ fam.isEmpty = false := by
    rcases h2 with ⟨hll, rfl⟩ | ⟨hpre, rfl⟩ | ⟨hll, rfl⟩ | ⟨hpre, rfl⟩
    · rw [hll]; exact ⟨rfl, rfl, by simp, rfl⟩
    · obtain ⟨t, hll⟩ := (leadsWith_iff _ _).1 hpre
      rw [hll]; exact ⟨rfl, rfl, by simp, rfl⟩
    · rw [hll]; exact ⟨rfl, rfl, by simp, rfl⟩
    · obtain ⟨t, hll⟩ := (leadsWith_iff _ _).1 hpre
      rw [hll]; exact ⟨rfl, rfl, by simp, rfl⟩
  have hne : (GetTrimmedLineText doc (cur - 1)).isEmpty = false := by
    rw [List.isEmpty_eq_false]
    intro h
    exact hkey.2.2.1 (by rw [h]; rfl)
  simp only [handleNewline, newlineScanBase, if_neg hc, hne, Bool.false_eq_true, if_false,
    hkey.1, hkey.2.1, hkey.2.2.2, if_neg hp, h3]
  simp

/-- Witness for the amended C1: a concrete `else` directly under
`if &a then` (indent 0) is realigned to 0 and the new line to 0 + 4. -/
theorem decrease_construct_aligns_witness :
    handleNewline 4 2 [⟨"if &a then".toList, 0⟩, ⟨"else".toList, 5⟩, ⟨[], 0⟩] =
      setIndent (setIndent [⟨"if &a then".toList, 0⟩, ⟨"else".toList, 5⟩, ⟨[], 0⟩] 1 0) 2 (0 + 4) :=
  decrease_construct_aligns _ 4 2 0 0 0 "if ".toList (by decide)
    (Or.inl ⟨by decide, rfl⟩) (by decide)

/-- Counterexample to claim C2 as stated: in cex2Doc the matching `repeat`
per the claim's own nesting rules (claimRepeatAnchor: a nested `until...;`
line increments the nesting level) is the outer one at line 0, indentation
0; yet the semicolon handler sets line 3 to indentation 3, that of the inner
`repeat`, because the source's nesting check is exact equality with the bare
end pattern `until` and ignores `until &a = 1;`. -/
theorem until_nesting_cex :
    claimRepeatAnchor cex2Doc 2 0 = some (0, 0) ∧
    getIndent (handleSemicolon 3 3 cex2Doc) 3 = 3 := by decide

/-- Amended claim C2: when a semicolon completes a line starting with
`until` and containing `;`, the handler recognizes it as ending a repeat
block; the backward search increments its nesting level only on lines whose
whole trimmed lowercased text is exactly `until` (nested `until <expr>;`
lines are not counted) and otherwise takes the nearest line exactly equal to
`repeat` at nesting level 0, setting the current line to that line's
indentation. -/
theorem until_deindents_to_found_repeat
    (doc : List SrcLine) (tw cur j bi : Nat)
    (h1 : 1 ≤ cur)
    (h2 : leadsWith "until".toList (ToLowerCase (GetTrimmedLineText doc cur)) = true)
    (h3 : hasSub (ToLowerCase (GetTrimmedLineText doc cur)) ";".toList = true)
    (h4 : (searchOpenerLoop doc "until".toList "repeat".toList true false [] 1000
        (cur - 1) 0 0).1 = some (j, bi)) :
    handleSemicolon tw cur doc = setIndent doc cur bi := by
  have hc : cur ≠ 0 := by omega
  obtain ⟨t, hll⟩ := (leadsWith_iff _ _).1 h2
  have hfind : findEndPattern blockPatterns (ToLowerCase (GetTrimmedLineText doc cur)) =
      some ⟨"repeat".toList, "until".toList, true, false, [], false, true, "repeat".toList⟩ := by
    rw [hll] at h3 ⊢
    have e : findEndPattern blockPatterns ("until".toList ++ t) =
        if hasSub ("until".toList ++ t) ";".toList then
          some ⟨"repeat".toList, "until".toList, true, false, [], false, true, "repeat".toList⟩
        else none := rfl
    rw [e, h3]; simp
  have hne : (GetTrimmedLineText doc cur).isEmpty = false := by
    rw [List.isEmpty_eq_false]
    intro h
    rw [h] at hll
    simp [ToLowerCase] at hll
  simp only [handleSemicolon, hne, Bool.false_eq_true, if_false, hfind, if_neg hc, h4]

/-- Witness for the amended C2: `until &done = true;` two lines under a
`repeat` at indentation 2 de-indents to 2. -/
theorem until_deindents_to_found_repeat_witness :
    handleSemicolon 4 2 [⟨"repeat".toList, 2⟩, ⟨"   &x = &x + 1;".toList, 6⟩,
        ⟨"until &done = true;".toList, 6⟩] =
      setIndent [⟨"repeat".toList, 2⟩, ⟨"   &x = &x + 1;".toList, 6⟩,
        ⟨"until &done = true;".toList, 6⟩] 2 2 :=
  until_deindents_to_found_repeat _ 4 2 0 2 (by decide) (by decide) (by decide) (by decide)

section SyntheticDocument

/-- A synthetic 2000-line document: 1999 lines reading `x` followed by an
`end-if;` line at indentation 8, containing no opener matching the
`end-if;` being completed on its last line. -/
def syntheticDoc : List SrcLine :=
  List.replicate 1999 ⟨"x".toList, 0⟩ ++ [⟨"end-if;".toList, 8⟩]

theorem syntheticDoc_text {j : Nat} (h : j ≤ 1998) :
    GetTrimmedLineText syntheticDoc j = "x".toList := by
  have hg : syntheticDoc.get? j = some ⟨"x".toList, 0⟩ := by
    rw [syntheticDoc, List.get?_eq_getElem?, List.getElem?_append]
    rw [if_pos (by rw [List.length_replicate]; omega)]
    rw [List.getElem?_replicate, if_pos (by omega)]
  simp only [GetTrimmedLineText, lineTextRaw, hg]
  rfl

theorem searchOpener_synthetic_none :
    ∀ (fuel sl nest iter : Nat), sl ≤ 1998 →
      (searchOpenerLoop syntheticDoc "end-if;".toList "if ".toList false true " then".toList
        fuel sl nest iter).1 = none := by
  intro fuel
  induction fuel with
  | zero => intro sl nest iter h; simp [searchOpenerLoop]
  | succ f ih =>
    intro sl nest iter h
    simp only [searchOpenerLoop, syntheticDoc_text h,
      show ToLowerCase "x".toList = "x".toList from rfl,
      show ("x".toList == "end-if;".toList) = false from rfl,
      show leadsWith "if ".toList "x".toList = false from rfl]
    simp only [Bool.false_eq_true, if_false]
    rcases Nat.eq_zero_or_pos sl with h0 | h0
    · simp [h0]
    · rw [if_neg (by omega)]
      exact ih (sl - 1) nest (iter + 1) (by omega)

theorem syntheticDoc_last : GetTrimmedLineText syntheticDoc 1999 = "end-if;".toList ∧
    getIndent syntheticDoc 1999 = 8 := by
  have hg : syntheticDoc.get? 1999 = some ⟨"end-if;".toList, 8⟩ := by
    rw [syntheticDoc, List.get?_eq_getElem?]
    rw [List.getElem?_append_right (by rw [List.length_replicate])]
    rw [List.length_replicate]
    rfl
  constructor
  · simp only [GetTrimmedLineText, lineTextRaw, hg]; rfl
  · simp only [getIndent, hg]; rfl

end SyntheticDocument

/-- Claim C6: every backward line-search loop stops after at most 1000
iterations (MAX_ITERATIONS) or once line 0 has been processed, whichever
comes first; and on the synthetic 2000-line document with no matching
opener the scan is exhausted and the semicolon handler takes the same
fallback as "no match found" (indentation 8 - tab width 4 = 4). -/
theorem backward_search_bounded :
    (∀ (doc : List SrcLine) (pat : List Char) (sl : Nat),
      (searchMatchingLoop doc pat 1000 sl 0 0).2 ≤ 1000 ∧
      (searchMatchingLoop doc pat 1000 sl 0 0).2 ≤ sl + 1) ∧
    (∀ (doc : List SrcLine) (ep sp ap : List Char) (fm ac : Bool) (sl : Nat),
      (searchOpenerLoop doc ep sp fm ac ap 1000 sl 0 0).2 ≤ 1000 ∧
      (searchOpenerLoop doc ep sp fm ac ap 1000 sl 0 0).2 ≤ sl + 1) ∧
    handleSemicolon 4 1999 syntheticDoc = setIndent syntheticDoc 1999 4 := by
  refine ⟨?_, ?_, ?_⟩
  · intro doc pat sl
    have h := searchMatchingLoop_iter_le doc pat 1000 sl 0 0
    exact ⟨by omega, by omega⟩
  · intro doc ep sp ap fm ac sl
    have h := searchOpenerLoop_iter_le doc ep sp ap fm ac 1000 sl 0 0
    exact ⟨by omega, by omega⟩
  · have hfind : findEndPattern blockPatterns (ToLowerCase (GetTrimmedLineText syntheticDoc 1999)) =
        some ⟨"if ".toList, "end-if;".toList, false, true, " then".toList, false, false, "if ".toList⟩ := by
      rw [syntheticDoc_last.1]; rfl
    have h := semicolon_search_none_eq syntheticDoc 4 1999
      ⟨"if ".toList, "end-if;".toList, false, true, " then".toList, false, false, "if ".toList⟩
      (by omega) hfind (searchOpener_synthetic_none 1000 1998 0 0 (by omega))
    rw [h, syntheticDoc_last.2]

section AutoPairing

/-- AutoPairTracker from AutoPairing.h lines 6-47: the line auto-pairing
last occurred on, and how many auto-inserted closing quotes/parentheses are
owed on it. The counts are C++ ints, modelled as Int (overflow is
immaterial here); the mutating member functions are modelled functionally,
with decrementCount returning its Bool result paired with the updated
tracker. -/
structure AutoPairTracker where
  lineNumber : Int
  quoteCount : Int
  parenthesisCount : Int
  deriving DecidableEq

/-- AutoPairTracker::reset (AutoPairing.h lines 14-18). -/
def AutoPairTracker.reset (_t : AutoPairTracker) : AutoPairTracker := ⟨-1, 0, 0⟩

/-- AutoPairTracker::checkLine (AutoPairing.h lines 21-27): zero the counts
when the line changed. -/
def AutoPairTracker.checkLine (t : AutoPairTracker) (newLine : Int) : AutoPairTracker :=
  if t.lineNumber ≠ newLine then ⟨newLine, 0, 0⟩ else t

/-- AutoPairTracker::incrementCount (AutoPairing.h lines 30-33). -/
def AutoPairTracker.incrementCount (t : AutoPairTracker) (ch : Char) : AutoPairTracker :=
  if ch = '"' then { t with quoteCount := t.quoteCount + 1 }
  else if ch = ')' then { t with parenthesisCount := t.parenthesisCount + 1 }
  else t

/-- AutoPairTracker::decrementCount (AutoPairing.h lines 36-46): true and a
decrement exactly when the respective count is positive. -/
def AutoPairTracker.decrementCount (t : AutoPairTracker) (ch : Char) :
    Bool × AutoPairTracker :=
  if ch = '"' ∧ t.quoteCount > 0 then (true, { t with quoteCount := t.quoteCount - 1 })
  else if ch = ')' ∧ t.parenthesisCount > 0 then
    (true, { t with parenthesisCount := t.parenthesisCount - 1 })
  else (false, t)

/-- The count the tracker keeps for a character: the quote count for `"`,
the parenthesis count for `)`, and 0 for anything else (no count exists). -/
def AutoPairTracker.countFor (t : AutoPairTracker) (ch : Char) : Int :=
  if ch = '"' then t.quoteCount else if ch = ')' then t.parenthesisCount else 0

/-- Insert a character at a position (SCI_ADDTEXT at the caret; clamped at
the end of the text). -/
def insertAt : List Char → Nat → Char → List Char
  | l, 0, c => c :: l
  | [], _ + 1, c => [c]
  | x :: xs, n + 1, c => x :: insertAt xs n c

/-- Delete one character at a position (SCI_DELETERANGE(pos, 1)). -/
def removeAt : List Char → Nat → List Char
  | [], _ => []
  | _ :: xs, 0 => xs
  | x :: xs, n + 1 => x :: removeAt xs n

/-- SCI_GETCHARAT: the character at a position, NUL when out of range. -/
def charAt (l : List Char) (n : Nat) : Char :=
  (l.get? n).getD (Char.ofNat 0)

/-- SCI_LINEFROMPOSITION: the number of line breaks before the position. -/
def lineFromPos (l : List Char) (n : Nat) : Int :=
  ((l.take n).filter (fun c => c == (Char.ofNat 10))).length

/-- The auto-pairing view of the editor: document text, caret position, and
the global tracker g_autoPairTracker. -/
structure EditorState where
  text : List Char
  caret : Nat
  tracker : AutoPairTracker
  deriving DecidableEq

/-- HandleAutoPairing from AutoPairing.cpp lines 7-143, as a state
transformer applied after the typed character `ch` is already in the text
(SCN_CHARADDED semantics: the caret sits just after it). Branches in source
order: disabled bail-out (line 23); checkLine (line 33); comma/semicolon
relocation past an owed quote (lines 36-61); quote consume-or-pair
(lines 64-92); closing-parenthesis consume (lines 95-117); opening
parenthesis pairing (lines 120-130). -/
def HandleAutoPairing (enabled : Bool) (ch : Char) (s : EditorState) : EditorState :=
  if !enabled then s
  else
    let currentPos := s.caret
    let currentLine := lineFromPos s.text currentPos
    let t := s.tracker.checkLine currentLine
    if ch = ',' ∨ ch = ';' then
      let nextChar := charAt s.text currentPos
      if nextChar = '"' ∧ t.quoteCount > 0 then
        ⟨insertAt (removeAt s.text (currentPos - 1)) currentPos ch, currentPos + 1,
          (t.decrementCount '"').2⟩
      else ⟨s.text, s.caret, t⟩
    else if ch = '"' then
      let nextChar := charAt s.text currentPos
      if nextChar = '"' then
        match t.decrementCount '"' with
        | (true, t2) => ⟨removeAt s.text (currentPos - 1), currentPos, t2⟩
        | (false, t2) => ⟨s.text, s.caret, t2⟩
      else ⟨insertAt s.text currentPos '"', currentPos, t.incrementCount '"'⟩
    else if ch = ')' then
      match t.decrementCount ')' with
      | (true, t2) =>
        let nextChar := charAt s.text currentPos
        if nextChar = ')' then ⟨removeAt s.text (currentPos - 1), currentPos, t2⟩
        else ⟨s.text, s.caret, t2⟩
      | (false, t2) => ⟨s.text, s.caret, t2⟩
    else if ch = '(' then
      ⟨insertAt s.text currentPos ')', currentPos, t.incrementCount ')'⟩
    else ⟨s.text, s.caret, t⟩

/-- Typing a character: the host inserts it at the caret and advances the
caret, then fires the SCN_CHARADDED handler. -/
def typeChar (enabled : Bool) (ch : Char) (s : EditorState) : EditorState :=
  HandleAutoPairing enabled ch ⟨insertAt s.text s.caret ch, s.caret + 1, s.tracker⟩

end AutoPairing

section ReentrancyFlag

/-- The branch conditions HandlePeopleCodeAutoIndentation meets before and
inside its dispatch (AutoIndent.cpp lines 20-519), as far as they decide
the final value of the static re-entrancy flag. -/
structure IndentHookEnv where
  isProcessingAtEntry : Bool
  windowValid : Bool
  grandparentValid : Bool
  captionRead : Bool
  captionHasPeopleCode : Bool
  ch : Char
  currentLineTrimmedEmpty : Bool
  deriving DecidableEq

/-- The value of the static `isProcessing` flag when
HandlePeopleCodeAutoIndentation returns, branch for branch from
AutoIndent.cpp. The re-entrant early return (lines 23-25) leaves the flag
as found; the invalid-window return (lines 28-30) happens before the flag
is set, so it stays false. After `isProcessing = true` (line 32): the
guard returns at lines 38-39, 46-47 and 52-53 reset it first; every return
inside the newline branch (lines 64-234: 67-70, 73-76, 79-82, 89-92,
167-171) and the semicolon branch (lines 235-444: 238-241, 243-247,
251-254, 294-297, 342-346, 405-409) resets it first, and fall-through
reaches the reset at line 518. In the 'f' branch (lines 445-507), however,
the empty-current-line return at lines 452-454 returns WITHOUT resetting
the flag; every other path falls through to line 518. -/
def isProcessingAfterReturn (env : IndentHookEnv) : Bool :=
  if env.isProcessingAtEntry then env.isProcessingAtEntry
  else if !env.windowValid then false
  else if !env.grandparentValid then false
  else if !env.captionRead then false
  else if !env.captionHasPeopleCode then false
  else if env.ch = (Char.ofNat 13) ∨ env.ch = (Char.ofNat 10) then false
  else if env.ch = ';' then false
  else if env.ch = 'f' then
    (if env.currentLineTrimmedEmpty then true else false)
  else false

end ReentrancyFlag

/-- Claim C9 (code_bug evaluation): at the failing input - a character
event for 'f' in a valid PeopleCode editor whose current line trims to
empty - HandlePeopleCodeAutoIndentation returns from AutoIndent.cpp line
453 with the static isProcessing flag still true, so every subsequent
character event is silently suppressed; the claim that the flag is false on
every return path is violated by the code. -/
theorem isProcessing_stuck_after_f_on_empty_line :
    isProcessingAfterReturn ⟨false, true, true, true, true, 'f', true⟩ = true := rfl


/-- Claim C10: the AutoPairTracker counts stay non-negative under every
operation (reset, checkLine, incrementCount, decrementCount), and
decrementCount returns true exactly when the count kept for the character
was strictly positive, in which case it lowers that count by one and
changes nothing else (the structure equality fixes all other fields). -/
theorem autoPairTracker_counts_invariant
    (t : AutoPairTracker) (ch : Char) (n : Int)
    (hq : 0 ≤ t.quoteCount) (hp : 0 ≤ t.parenthesisCount) :
    (0 ≤ (t.reset).quoteCount ∧ 0 ≤ (t.reset).parenthesisCount) ∧
    (0 ≤ (t.checkLine n).quoteCount ∧ 0 ≤ (t.checkLine n).parenthesisCount) ∧
    (0 ≤ (t.incrementCount ch).quoteCount ∧ 0 ≤ (t.incrementCount ch).parenthesisCount) ∧
    (0 ≤ (t.decrementCount ch).2.quoteCount ∧ 0 ≤ (t.decrementCount ch).2.parenthesisCount) ∧
    ((t.decrementCount ch).1 = true ↔ 0 < t.countFor ch) ∧
    ((t.decrementCount ch).1 = true →
      ((ch = '"' ∧ (t.decrementCount ch).2 = { t with quoteCount := t.quoteCount - 1 }) ∨
       (ch = ')' ∧ (t.decrementCount ch).2 = { t with parenthesisCount := t.parenthesisCount - 1 }))) := by
  unfold AutoPairTracker.reset AutoPairTracker.checkLine AutoPairTracker.incrementCount
    AutoPairTracker.decrementCount AutoPairTracker.countFor
  split_ifs <;> simp_all <;> omega


section InsertRemoveLemmas

theorem insertAt_length : ∀ (l : List Char) (n : Nat) (c : Char),
    (insertAt l n c).length = l.length + 1 := by
  intro l
  induction l with
  | nil => intro n c; cases n <;> rfl
  | cons x xs ih => intro n c; cases n with
    | zero => rfl
    | succ n => simp [insertAt, ih]

theorem removeAt_insertAt : ∀ (l : List Char) (n : Nat) (c : Char), n ≤ l.length →
    removeAt (insertAt l n c) n = l := by
  intro l
  induction l with
  | nil =>
    intro n c h
    simp only [List.length_nil, Nat.le_zero] at h
    subst h; rfl
  | cons x xs ih => intro n c h; cases n with
    | zero => rfl
    | succ n => simp [insertAt, removeAt, ih _ _ (by simpa using h)]

theorem charAt_insertAt_self : ∀ (l : List Char) (n : Nat) (c : Char), n ≤ l.length →
    charAt (insertAt l n c) n = c := by
  intro l
  induction l with
  | nil =>
    intro n c h
    simp only [List.length_nil, Nat.le_zero] at h
    subst h; rfl
  | cons x xs ih => intro n c h; cases n with
    | zero => rfl
    | succ n => simpa [insertAt, charAt] using ih _ c (by simpa using h)

theorem charAt_insertAt_succ : ∀ (l : List Char) (n : Nat) (c : Char), n ≤ l.length →
    charAt (insertAt l n c) (n + 1) = charAt l n := by
  intro l
  induction l with
  | nil =>
    intro n c h
    simp only [List.length_nil, Nat.le_zero] at h
    subst h; rfl
  | cons x xs ih => intro n c h; cases n with
    | zero => rfl
    | succ n => simpa [insertAt, charAt] using ih n c (by simpa using h)

theorem take_insertAt_self : ∀ (l : List Char) (n : Nat) (c : Char), n ≤ l.length →
    (insertAt l n c).take n = l.take n := by
  intro l
  induction l with
  | nil =>
    intro n c h
    simp only [List.length_nil, Nat.le_zero] at h
    subst h; rfl
  | cons x xs ih => intro n c h; cases n with
    | zero => rfl
    | succ n => simp [insertAt, ih _ _ (by simpa using h)]

theorem take_insertAt_succ : ∀ (l : List Char) (n : Nat) (c : Char), n ≤ l.length →
    (insertAt l n c).take (n + 1) = l.take n ++ [c] := by
  intro l
  induction l with
  | nil =>
    intro n c h
    simp only [List.length_nil, Nat.le_zero] at h
    subst h; rfl
  | cons x xs ih => intro n c h; cases n with
    | zero => rfl
    | succ n => simp [insertAt, ih _ _ (by simpa using h)]

theorem lineFromPos_insertAt_self (l : List Char) (n : Nat) (c : Char) (h : n ≤ l.length) :
    lineFromPos (insertAt l n c) n = lineFromPos l n := by
  simp [lineFromPos, take_insertAt_self l n c h]

theorem lineFromPos_insertAt_succ (l : List Char) (n : Nat) (c : Char) (h : n ≤ l.length)
    (hc : (c == (Char.ofNat 10)) = false) :
    lineFromPos (insertAt l n c) (n + 1) = lineFromPos l n := by
  simp [lineFromPos, take_insertAt_succ l n c h, List.filter_append, hc]

end InsertRemoveLemmas

/-- Claim C7: with auto-pairing enabled, typing `(` inserts a matching `)`
right after the caret, leaves the caret between the two, and increments the
tracked parenthesis count; typing `)` immediately afterwards consumes the
auto-inserted one (the typed character is deleted, the caret advances past
the existing `)`, the tracker returns to its old state), so the document
grows by exactly two characters over the `(`-then-`)` sequence. -/
theorem paren_autopair_roundtrip
    (text : List Char) (caret : Nat) (t : AutoPairTracker)
    (hc : caret ≤ text.length)
    (hl : t.lineNumber = lineFromPos text caret)
    (hp : 0 ≤ t.parenthesisCount) :
    typeChar true '(' ⟨text, caret, t⟩ =
      ⟨insertAt (insertAt text caret '(') (caret + 1) ')', caret + 1,
        { t with parenthesisCount := t.parenthesisCount + 1 }⟩ ∧
    typeChar true ')' (typeChar true '(' ⟨text, caret, t⟩) =
      ⟨insertAt (insertAt text caret '(') (caret + 1) ')', caret + 2, t⟩ ∧
    (typeChar true ')' (typeChar true '(' ⟨text, caret, t⟩)).text.length = text.length + 2 := by
  have hlen1 : (insertAt text caret '(').length = text.length + 1 := insertAt_length _ _ _
  have hlen2 : (insertAt (insertAt text caret '(') (caret + 1) ')').length = text.length + 2 := by
    rw [insertAt_length, hlen1]
  have hline1 : lineFromPos (insertAt text caret '(') (caret + 1) = t.lineNumber := by
    rw [lineFromPos_insertAt_succ text caret '(' hc (by decide)]
    exact hl.symm
  have hchk1 : t.checkLine (lineFromPos (insertAt text caret '(') (caret + 1)) = t := by
    rw [hline1]
    simp [AutoPairTracker.checkLine]
  have hstep1 : typeChar true '(' ⟨text, caret, t⟩ =
      ⟨insertAt (insertAt text caret '(') (caret + 1) ')', caret + 1,
        { t with parenthesisCount := t.parenthesisCount + 1 }⟩ := by
    simp [typeChar, HandleAutoPairing, hchk1, AutoPairTracker.incrementCount]
  have hline2 : lineFromPos (insertAt (insertAt (insertAt text caret '(') (caret + 1) ')')
      (caret + 1) ')') (caret + 2) = t.lineNumber := by
    rw [lineFromPos_insertAt_succ (insertAt (insertAt text caret '(') (caret + 1) ')')
      (caret + 1) ')' (by rw [hlen2]; omega) (by decide)]
    rw [lineFromPos_insertAt_self (insertAt text caret '(') (caret + 1) ')'
      (by rw [hlen1]; omega)]
    exact hline1
  have hchk2 : AutoPairTracker.checkLine { t with parenthesisCount := t.parenthesisCount + 1 }
      (lineFromPos (insertAt (insertAt (insertAt text caret '(') (caret + 1) ')')
        (caret + 1) ')') (caret + 2)) =
      { t with parenthesisCount := t.parenthesisCount + 1 } := by
    rw [hline2]
    simp [AutoPairTracker.checkLine]
  have hdec : AutoPairTracker.decrementCount
      { t with parenthesisCount := t.parenthesisCount + 1 } ')' = (true, t) := by
    simp only [AutoPairTracker.decrementCount]
    split_ifs with hA hB
    · exact absurd hA (by simp)
    · simp
    · exact absurd ⟨by trivial, show ({ t with parenthesisCount := t.parenthesisCount + 1 } :
        AutoPairTracker).parenthesisCount > 0 by show t.parenthesisCount + 1 > 0; omega⟩ hB
  have hnext : charAt (insertAt (insertAt (insertAt text caret '(') (caret + 1) ')')
      (caret + 1) ')') (caret + 2) = ')' := by
    rw [charAt_insertAt_succ (insertAt (insertAt text caret '(') (caret + 1) ')')
      (caret + 1) ')' (by rw [hlen2]; omega)]
    exact charAt_insertAt_self (insertAt text caret '(') (caret + 1) ')' (by rw [hlen1]; omega)
  have hrm : removeAt (insertAt (insertAt (insertAt text caret '(') (caret + 1) ')')
      (caret + 1) ')') (caret + 1) = insertAt (insertAt text caret '(') (caret + 1) ')' :=
    removeAt_insertAt (insertAt (insertAt text caret '(') (caret + 1) ')') (caret + 1) ')'
      (by rw [hlen2]; omega)
  have hstep2 : typeChar true ')' (typeChar true '(' ⟨text, caret, t⟩) =
      ⟨insertAt (insertAt text caret '(') (caret + 1) ')', caret + 2, t⟩ := by
    rw [hstep1]
    simp [typeChar, HandleAutoPairing, hchk2, hdec, hnext, hrm]
  refine ⟨hstep1, hstep2, ?_⟩
  rw [hstep2]
  exact hlen2

theorem paren_autopair_roundtrip_witness :
    typeChar true '(' ⟨([] : List Char), 0, ⟨0, 0, 0⟩⟩ =
      ⟨insertAt (insertAt ([] : List Char) 0 '(') (0 + 1) ')', 0 + 1,
        { (⟨0, 0, 0⟩ : AutoPairTracker) with parenthesisCount := (0 : Int) + 1 }⟩ ∧
    typeChar true ')' (typeChar true '(' ⟨([] : List Char), 0, ⟨0, 0, 0⟩⟩) =
      ⟨insertAt (insertAt ([] : List Char) 0 '(') (0 + 1) ')', 0 + 2, ⟨0, 0, 0⟩⟩ ∧
    (typeChar true ')' (typeChar true '(' ⟨([] : List Char), 0, ⟨0, 0, 0⟩⟩)).text.length =
      ([] : List Char).length + 2 :=
  paren_autopair_roundtrip [] 0 ⟨0, 0, 0⟩ (by decide) (by decide) (by decide)


/-- Witness for C10: a tracker on line 0 owing one quote and two
parentheses, with a `"` being consumed. -/
theorem autoPairTracker_counts_invariant_witness :
    (0 ≤ ((⟨0, 1, 2⟩ : AutoPairTracker).reset).quoteCount ∧
      0 ≤ ((⟨0, 1, 2⟩ : AutoPairTracker).reset).parenthesisCount) ∧
    (0 ≤ ((⟨0, 1, 2⟩ : AutoPairTracker).checkLine 5).quoteCount ∧
      0 ≤ ((⟨0, 1, 2⟩ : AutoPairTracker).checkLine 5).parenthesisCount) ∧
    (0 ≤ ((⟨0, 1, 2⟩ : AutoPairTracker).incrementCount '"').quoteCount ∧
      0 ≤ ((⟨0, 1, 2⟩ : AutoPairTracker).incrementCount '"').parenthesisCount) ∧
    (0 ≤ ((⟨0, 1, 2⟩ : AutoPairTracker).decrementCount '"').2.quoteCount ∧
      0 ≤ ((⟨0, 1, 2⟩ : AutoPairTracker).decrementCount '"').2.parenthesisCount) ∧
    (((⟨0, 1, 2⟩ : AutoPairTracker).decrementCount '"').1 = true ↔
      0 < (⟨0, 1, 2⟩ : AutoPairTracker).countFor '"') ∧
    (((⟨0, 1, 2⟩ : AutoPairTracker).decrementCount '"').1 = true →
      (('"' = '"' ∧ ((⟨0, 1, 2⟩ : AutoPairTracker).decrementCount '"').2 =
          { (⟨0, 1, 2⟩ : AutoPairTracker) with quoteCount := (1 : Int) - 1 }) ∨
       ('"' = ')' ∧ ((⟨0, 1, 2⟩ : AutoPairTracker).decrementCount '"').2 =
          { (⟨0, 1, 2⟩ : AutoPairTracker) with parenthesisCount := (2 : Int) - 1 }))) :=
  autoPairTracker_counts_invariant ⟨0, 1, 2⟩ '"' 5 (by decide) (by decide)

section SetIndentLemmas

theorem get?_setIndent : ∀ (doc : List SrcLine) (i v j : Nat),
    (setIndent doc i v).get? j =
      if j = i then (doc.get? j).map (fun l => ⟨l.text, v⟩) else doc.get? j := by
  intro doc
  induction doc with
  | nil => intro i v j; simp [setIndent]
  | cons l ls ih =>
    intro i v j
    cases i with
    | zero => cases j with
      | zero => simp [setIndent]
      | succ j => simp [setIndent]
    | succ i => cases j with
      | zero => simp [setIndent]
      | succ j =>
        simp only [setIndent, List.get?_cons_succ, ih]
        by_cases h : j = i <;> simp [h]

theorem lineTextRaw_setIndent (doc : List SrcLine) (i v j : Nat) :
    lineTextRaw (setIndent doc i v) j = lineTextRaw doc j := by
  simp only [lineTextRaw, get?_setIndent]
  by_cases h : j = i
  · rw [if_pos h]
    cases doc.get? j <;> simp
  · rw [if_neg h]

theorem GetTrimmedLineText_setIndent (doc : List SrcLine) (i v j : Nat) :
    GetTrimmedLineText (setIndent doc i v) j = GetTrimmedLineText doc j := by
  simp [GetTrimmedLineText, lineTextRaw_setIndent]

theorem getIndent_setIndent_ne (doc : List SrcLine) (i v j : Nat) (h : j ≠ i) :
    getIndent (setIndent doc i v) j = getIndent doc j := by
  simp only [getIndent, get?_setIndent, if_neg h]

theorem setIndent_setIndent_same : ∀ (doc : List SrcLine) (i v w : Nat),
    setIndent (setIndent doc i v) i w = setIndent doc i w := by
  intro doc
  induction doc with
  | nil => intro i v w; rfl
  | cons l ls ih => intro i v w; cases i with
    | zero => simp [setIndent]
    | succ i => simp [setIndent, ih]

theorem setIndent_comm : ∀ (doc : List SrcLine) (i j v w : Nat), i ≠ j →
    setIndent (setIndent doc i v) j w = setIndent (setIndent doc j w) i v := by
  intro doc
  induction doc with
  | nil => intro i j v w _; rfl
  | cons l ls ih =>
    intro i j v w h
    cases i with
    | zero => cases j with
      | zero => exact absurd rfl h
      | succ j => simp [setIndent]
    | succ i => cases j with
      | zero => simp [setIndent]
      | succ j => simp [setIndent, ih i j v w (by omega)]

theorem searchMatchingLoop_setIndent (doc : List SrcLine) (pat : List Char) (i v : Nat) :
    ∀ (fuel sl nest iter : Nat), sl < i →
      searchMatchingLoop (setIndent doc i v) pat fuel sl nest iter =
        searchMatchingLoop doc pat fuel sl nest iter := by
  intro fuel
  induction fuel with
  | zero => intro sl nest iter _; rfl
  | succ f ih =>
    intro sl nest iter h
    simp only [searchMatchingLoop, GetTrimmedLineText_setIndent,
      getIndent_setIndent_ne doc i v sl (by omega)]
    split_ifs <;> first
      | rfl
      | exact ih (sl - 1) _ (iter + 1) (by omega)

theorem newlineScanBase_setIndent (cur : Nat) (doc : List SrcLine) (i v : Nat)
    (h : cur - 1 ≤ i) :
    newlineScanBase cur (setIndent doc i v) = newlineScanBase cur doc := by
  simp only [newlineScanBase, GetTrimmedLineText_setIndent]
  split_ifs with h1 h2 h3 <;> try rfl
  rw [searchMatchingLoop_setIndent doc _ i v 1000 (cur - 1 - 1) 0 0 (by omega)]


end SetIndentLemmas

/-- Claim C8: the newline-indentation step is idempotent: running it a
second time at the same position on the document it produced changes no
line (in particular, a document already indented exactly as the step would
produce it is left untouched). -/
theorem handleNewline_idempotent (tw cur : Nat) (doc : List SrcLine) :
    handleNewline tw cur (handleNewline tw cur doc) = handleNewline tw cur doc := by
  by_cases hc : cur = 0
  · simp [handleNewline, hc]
  by_cases hempT : (GetTrimmedLineText doc (cur - 1)).isEmpty = true
  · have hres : handleNewline tw cur doc = doc := by
      simp only [handleNewline, if_neg hc, hempT, if_true]
    rw [hres]; exact hres
  have hemp : (GetTrimmedLineText doc (cur - 1)).isEmpty = false := by
    cases h : (GetTrimmedLineText doc (cur - 1)).isEmpty
    · rfl
    · exact absurd h hempT
  have hne : cur - 1 ≠ cur := by omega
  rcases hbase : newlineScanBase cur doc with _ | ⟨j, m⟩
  · have hres : handleNewline tw cur doc = setIndent doc cur
        (getIndent doc (cur - 1) +
          (if (scanPatterns blockPatterns (ToLowerCase (GetTrimmedLineText doc (cur - 1)))).1
            then tw else 0)) := by
      simp only [handleNewline, if_neg hc, hemp, Bool.false_eq_true, if_false, hbase]
    have htext : GetTrimmedLineText (setIndent doc cur
        (getIndent doc (cur - 1) +
          (if (scanPatterns blockPatterns (ToLowerCase (GetTrimmedLineText doc (cur - 1)))).1
            then tw else 0))) (cur - 1) = GetTrimmedLineText doc (cur - 1) :=
      GetTrimmedLineText_setIndent doc cur _ (cur - 1)
    have hbase2 : newlineScanBase cur (setIndent doc cur
        (getIndent doc (cur - 1) +
          (if (scanPatterns blockPatterns (ToLowerCase (GetTrimmedLineText doc (cur - 1)))).1
            then tw else 0))) = none := by
      rw [newlineScanBase_setIndent cur doc cur _ (by omega), hbase]
    have hind : getIndent (setIndent doc cur
        (getIndent doc (cur - 1) +
          (if (scanPatterns blockPatterns (ToLowerCase (GetTrimmedLineText doc (cur - 1)))).1
            then tw else 0))) (cur - 1) = getIndent doc (cur - 1) :=
      getIndent_setIndent_ne doc cur _ (cur - 1) hne
    rw [hres]
    simp only [handleNewline, if_neg hc, htext, hemp, Bool.false_eq_true, if_false, hbase2, hind]
    rw [setIndent_setIndent_same]
  · have hres : handleNewline tw cur doc = setIndent (setIndent doc (cur - 1) m) cur
        (m + (if (scanPatterns blockPatterns (ToLowerCase (GetTrimmedLineText doc (cur - 1)))).1
            then tw else 0)) := by
      simp only [handleNewline, if_neg hc, hemp, Bool.false_eq_true, if_false, hbase]
    have htext : ∀ k, GetTrimmedLineText (setIndent (setIndent doc (cur - 1) m) cur
        (m + (if (scanPatterns blockPatterns (ToLowerCase (GetTrimmedLineText doc (cur - 1)))).1
            then tw else 0))) k = GetTrimmedLineText doc k := by
      intro k
      rw [GetTrimmedLineText_setIndent, GetTrimmedLineText_setIndent]
    have hbase2 : newlineScanBase cur (setIndent (setIndent doc (cur - 1) m) cur
        (m + (if (scanPatterns blockPatterns (ToLowerCase (GetTrimmedLineText doc (cur - 1)))).1
            then tw else 0))) = some (j, m) := by
      rw [newlineScanBase_setIndent cur _ cur _ (by omega),
        newlineScanBase_setIndent cur doc (cur - 1) m (by omega), hbase]
    rw [hres]
    simp only [handleNewline, if_neg hc, htext (cur - 1), hemp, Bool.false_eq_true, if_false, hbase2]
    rw [setIndent_comm _ cur (cur - 1) _ _ (by omega), setIndent_setIndent_same,
      setIndent_setIndent_same]


end AppRefiner
